import Mathlib

/-!
Verification of the pigeon native-messaging server (`src/server/src/main.rs`)
against its natural-language specification.

The Rust source is shallowly embedded: strings are Lean `String`s (lists of
unicode scalar values), byte-level operations go through an explicit UTF-8
encoder, fallible operations return `Except`, and the process's external
effects (subprocess launches, environment variables, file writes) are
represented by an explicit environment record and effect lists.
-/

deriving instance DecidableEq for Except

namespace Pigeon

/-! ## UTF-8 byte model

Rust `String`/`str` values are UTF-8 encoded; `str::len` is the byte length
and `str::char_indices` yields byte offsets of each char.  We model bytes as
`Nat` values < 256. -/

/-- UTF-8 encoding of a single unicode scalar value. -/
def utf8EncodeChar (c : Char) : List Nat :=
  let n := c.toNat
  if n < 128 then [n]
  else if n < 2048 then [192 + n / 64, 128 + n % 64]
  else if n < 65536 then [224 + n / 4096, 128 + (n / 64) % 64, 128 + n % 64]
  else [240 + n / 262144, 128 + (n / 4096) % 64, 128 + (n / 64) % 64, 128 + n % 64]

/-- Number of bytes a char occupies in UTF-8 (Rust `char::len_utf8`). -/
def csize (c : Char) : Nat := (utf8EncodeChar c).length

/-- UTF-8 encoding of a sequence of chars. -/
def utf8Encode : List Char → List Nat
  | [] => []
  | c :: cs => utf8EncodeChar c ++ utf8Encode cs

/-- Byte length of a char sequence (Rust `str::len` on the packed string). -/
def byteLenL (l : List Char) : Nat := (l.map csize).sum

/-- Byte length of a string (Rust `str::len`). -/
def strByteLen (s : String) : Nat := byteLenL s.data

theorem csize_pos (c : Char) : 0 < csize c := by
  simp only [csize, utf8EncodeChar]
  repeat' split
  all_goals simp

theorem utf8Encode_length (l : List Char) : (utf8Encode l).length = byteLenL l := by
  induction l with
  | nil => rfl
  | cons c cs ih =>
    simp [utf8Encode, byteLenL, List.map_cons, List.sum_cons, ih, csize,
      List.length_append]

/-- Strict UTF-8 decoding of one char from the head of a byte list, following
the validation rules of Rust's `String::from_utf8` (RFC 3629: no overlong
forms, no surrogates, nothing above U+10FFFF). Returns the decoded char and
the remaining bytes. -/
def decodeChar : List Nat → Option (Char × List Nat)
  | [] => none
  | b :: rest =>
    if b < 128 then some (Char.ofNat b, rest)
    else if b < 194 then none
    else if b < 224 then
      match rest with
      | b1 :: r =>
        if 128 ≤ b1 ∧ b1 < 192 then
          some (Char.ofNat ((b - 192) * 64 + (b1 - 128)), r)
        else none
      | [] => none
    else if b < 240 then
      match rest with
      | b1 :: b2 :: r =>
        if (128 ≤ b1 ∧ b1 < 192) ∧ (128 ≤ b2 ∧ b2 < 192) ∧
            (b = 224 → 160 ≤ b1) ∧ (b = 237 → b1 < 160) then
          some (Char.ofNat ((b - 224) * 4096 + (b1 - 128) * 64 + (b2 - 128)), r)
        else none
      | _ => none
    else if b < 245 then
      match rest with
      | b1 :: b2 :: b3 :: r =>
        if (128 ≤ b1 ∧ b1 < 192) ∧ (128 ≤ b2 ∧ b2 < 192) ∧ (128 ≤ b3 ∧ b3 < 192) ∧
            (b = 240 → 144 ≤ b1) ∧ (b = 244 → b1 < 144) then
          some (Char.ofNat ((b - 240) * 262144 + (b1 - 128) * 4096 +
            (b2 - 128) * 64 + (b3 - 128)), r)
        else none
      | _ => none
    else none

/-- Fuel-indexed strict UTF-8 decoding of a whole byte list. -/
def utf8DecodeFuel : Nat → List Nat → Option (List Char)
  | _, [] => some []
  | 0, _ :: _ => none
  | fuel + 1, b :: rest =>
    match decodeChar (b :: rest) with
    | some (c, r) => (utf8DecodeFuel fuel r).map (fun cs => c :: cs)
    | none => none

/-- Strict UTF-8 decoding of a byte list (Rust `String::from_utf8`):
`some` of the char sequence iff the bytes are valid UTF-8. -/
def utf8Decode (l : List Nat) : Option (List Char) := utf8DecodeFuel l.length l

theorem char_valid_nat (c : Char) :
    c.toNat < 55296 ∨ 57344 ≤ c.toNat ∧ c.toNat < 1114112 := c.valid

theorem decodeChar_encodeChar (c : Char) (rest : List Nat) :
    decodeChar (utf8EncodeChar c ++ rest) = some (c, rest) := by
  have hv := char_valid_nat c
  set n := c.toNat with hn
  have hofn : Char.ofNat n = c := Char.ofNat_toNat c
  by_cases h1 : n < 128
  · have he : utf8EncodeChar c = [n] := by rw [utf8EncodeChar, ← hn, if_pos h1]
    rw [he]
    simp only [List.cons_append, List.nil_append, decodeChar, if_pos h1, hofn]
  · by_cases h2 : n < 2048
    · have he : utf8EncodeChar c = [192 + n / 64, 128 + n % 64] := by
        rw [utf8EncodeChar, ← hn, if_neg h1, if_pos h2]
      rw [he]
      simp only [List.cons_append, List.nil_append, decodeChar]
      rw [if_neg (by omega), if_neg (by omega), if_pos (by omega),
        if_pos (by constructor <;> omega)]
      have : (192 + n / 64 - 192) * 64 + (128 + n % 64 - 128) = n := by omega
      rw [this, hofn]
    · by_cases h3 : n < 65536
      · have he : utf8EncodeChar c =
            [224 + n / 4096, 128 + (n / 64) % 64, 128 + n % 64] := by
          rw [utf8EncodeChar, ← hn, if_neg h1, if_neg h2, if_pos h3]
        rw [he]
        simp only [List.cons_append, List.nil_append, decodeChar]
        rw [if_neg (by omega), if_neg (by omega), if_neg (by omega),
          if_pos (by omega),
          if_pos (by
            refine ⟨⟨by omega, by omega⟩, ⟨by omega, by omega⟩, ?_, ?_⟩ <;>
              intro hb <;> omega)]
        have : (224 + n / 4096 - 224) * 4096 + (128 + (n / 64) % 64 - 128) * 64 +
            (128 + n % 64 - 128) = n := by omega
        rw [this, hofn]
      · have h4 : n < 1114112 := by omega
        have he : utf8EncodeChar c = [240 + n / 262144, 128 + (n / 4096) % 64,
            128 + (n / 64) % 64, 128 + n % 64] := by
          rw [utf8EncodeChar, ← hn, if_neg h1, if_neg h2, if_neg h3]
        rw [he]
        simp only [List.cons_append, List.nil_append, decodeChar]
        rw [if_neg (by omega), if_neg (by omega), if_neg (by omega),
          if_neg (by omega), if_pos (by omega),
          if_pos (by
            refine ⟨⟨by omega, by omega⟩, ⟨by omega, by omega⟩,
              ⟨by omega, by omega⟩, ?_, ?_⟩ <;> intro hb <;> omega)]
        have : (240 + n / 262144 - 240) * 262144 + (128 + (n / 4096) % 64 - 128) * 4096 +
            (128 + (n / 64) % 64 - 128) * 64 + (128 + n % 64 - 128) = n := by omega
        rw [this, hofn]

theorem utf8DecodeFuel_encode (cs : List Char) :
    ∀ fuel, (utf8Encode cs).length ≤ fuel →
      utf8DecodeFuel fuel (utf8Encode cs) = some cs := by
  induction cs with
  | nil => intro fuel _; cases fuel <;> rfl
  | cons c cs ih =>
    intro fuel hf
    have hcpos : 0 < (utf8EncodeChar c).length := csize_pos c
    obtain ⟨b, bs, hb⟩ : ∃ b bs, utf8EncodeChar c = b :: bs := by
      cases hcc : utf8EncodeChar c with
      | nil => rw [hcc] at hcpos; simp at hcpos
      | cons x xs => exact ⟨x, xs, rfl⟩
    have henc : utf8Encode (c :: cs) = b :: (bs ++ utf8Encode cs) := by
      rw [utf8Encode, hb]; simp
    rw [henc] at hf ⊢
    have hlen : (utf8Encode cs).length ≤ fuel - 1 := by
      simp [List.length_append] at hf; omega
    obtain ⟨f, rfl⟩ : ∃ f, fuel = f + 1 := by
      cases fuel with
      | zero => simp at hf
      | succ f => exact ⟨f, rfl⟩
    have hdc : decodeChar (b :: (bs ++ utf8Encode cs)) = some (c, utf8Encode cs) := by
      have := decodeChar_encodeChar c (utf8Encode cs)
      rw [hb] at this; simpa using this
    rw [utf8DecodeFuel, hdc]
    simp [ih f (by omega)]

theorem utf8Decode_encode (cs : List Char) : utf8Decode (utf8Encode cs) = some cs :=
  utf8DecodeFuel_encode cs _ (Nat.le_refl _)

/-! ## Framed channel (`read_message` / `write_message`)

Wire shape: 4-byte little-endian length prefix followed by that many bytes
of UTF-8 text.  `write_message` computes the prefix from the byte length of
the message with Rust's `as u32` cast, i.e. reduction modulo 2^32. -/

/-- Little-endian 4-byte encoding of a `u32` value (Rust `u32::to_le_bytes`). -/
def le4 (n : Nat) : List Nat :=
  [n % 256, n / 256 % 256, n / 65536 % 256, n / 16777216 % 256]

/-- Little-endian interpretation of 4 bytes (Rust `u32::from_le_bytes`). -/
def fromLe4 (b0 b1 b2 b3 : Nat) : Nat :=
  b0 + b1 * 256 + b2 * 65536 + b3 * 16777216

/-- Failure modes of `read_message`: `eof` models `read_exact` hitting the
end of the stream, `invalidData` models the `InvalidData` error produced
when the body is not valid UTF-8. -/
inductive ReadErr where
  | eof
  | invalidData
deriving DecidableEq

/-- `read_message`: read a 4-byte little-endian length prefix, then that many
bytes, and require them to be valid UTF-8.  Returns the decoded text and the
unconsumed remainder of the stream. -/
def read_message : List Nat → Except ReadErr (String × List Nat)
  | b0 :: b1 :: b2 :: b3 :: rest =>
    if rest.length < fromLe4 b0 b1 b2 b3 then .error .eof
    else
      match utf8Decode (rest.take (fromLe4 b0 b1 b2 b3)) with
      | some cs => .ok (String.mk cs, rest.drop (fromLe4 b0 b1 b2 b3))
      | none => .error .invalidData
  | _ => .error .eof

/-- `write_message`: emit the 4-byte little-endian byte-length prefix
(truncated to `u32` as by Rust's `as u32` cast) followed by the UTF-8 bytes. -/
def write_message (msg : String) : List Nat :=
  le4 ((utf8Encode msg.data).length % 4294967296) ++ utf8Encode msg.data

theorem fromLe4_le4 (n : Nat) (h : n < 4294967296) :
    fromLe4 (n % 256) (n / 256 % 256) (n / 65536 % 256) (n / 16777216 % 256) = n := by
  unfold fromLe4; omega

theorem read_write_roundtrip (msg : String) (tail : List Nat)
    (h : strByteLen msg < 4294967296) :
    read_message (write_message msg ++ tail) = .ok (msg, tail) := by
  have hlen : (utf8Encode msg.data).length = strByteLen msg := utf8Encode_length msg.data
  have hmod : (utf8Encode msg.data).length % 4294967296 = (utf8Encode msg.data).length :=
    Nat.mod_eq_of_lt (by omega)
  rw [write_message]
  simp only [le4, hmod, List.cons_append, List.nil_append, List.append_assoc]
  rw [read_message]
  rw [fromLe4_le4 _ (by omega)]
  rw [if_neg (by simp [List.length_append])]
  rw [List.take_left' rfl, utf8Decode_encode, List.drop_left]

theorem read_message_short (s : List Nat) (h : s.length < 4) :
    read_message s = .error .eof := by
  rcases s with _ | ⟨a, _ | ⟨b, _ | ⟨c, _ | ⟨d, r⟩⟩⟩⟩
  · rfl
  · rfl
  · rfl
  · rfl
  · simp [List.length_cons] at h; omega

theorem read_message_truncated (b0 b1 b2 b3 : Nat) (rest : List Nat)
    (h : rest.length < fromLe4 b0 b1 b2 b3) :
    read_message (b0 :: b1 :: b2 :: b3 :: rest) = .error .eof := by
  rw [read_message, if_pos h]

theorem read_message_invalid (b0 b1 b2 b3 : Nat) (rest : List Nat)
    (h1 : ¬ rest.length < fromLe4 b0 b1 b2 b3)
    (h2 : utf8Decode (rest.take (fromLe4 b0 b1 b2 b3)) = none) :
    read_message (b0 :: b1 :: b2 :: b3 :: rest) = .error .invalidData := by
  rw [read_message, if_neg h1, h2]

theorem utf8EncodeChar_a : utf8EncodeChar 'a' = [97] := by decide

theorem utf8Encode_replicate_a (n : Nat) :
    utf8Encode (List.replicate n 'a') = List.replicate n 97 := by
  induction n with
  | zero => rfl
  | succ k ih =>
    rw [List.replicate_succ, List.replicate_succ, utf8Encode, ih, utf8EncodeChar_a]
    rfl

/-! ## Message formatter (`format_message`)

Direct translation of the Rust function: location suffix, optional
` (deleted lines)` marker, fenced code excerpt truncated at a char boundary
at or before byte offset 2000, question line with fallback. -/

/-- The location suffix appended after the file name, mirroring the Rust
`match (start_line, end_line)` with its `s != e` guard. -/
def locationSuffix : Option Nat → Option Nat → String
  | some s, some e =>
    if s ≠ e then ":" ++ toString s ++ "-" ++ toString e else ":" ++ toString s
  | some s, none => ":" ++ toString s
  | none, _ => ""

/-- The ` (deleted lines)` marker, appended exactly when `side == Some("old")`. -/
def sideMarker (side : Option String) : String :=
  if side = some "old" then " (deleted lines)" else ""

/-- The question line: the question itself if non-empty, else the fallback. -/
def questionPart (question : String) : String :=
  if question = "" then "Explain this code" else question

/-- Byte offsets at which each char of the list starts, beginning at `off`
(Rust `str::char_indices` offsets). -/
def charStartsFrom : Nat → List Char → List Nat
  | _, [] => []
  | off, c :: cs => off :: charStartsFrom (off + csize c) cs

/-- The byte offset the Rust code slices at:
`code.char_indices().map(|(i, _)| i).take_while(|&i| i <= 2000).last().unwrap_or(0)`. -/
def truncEnd (code : List Char) : Nat :=
  ((charStartsFrom 0 code).takeWhile (fun i => decide (i ≤ 2000))).getLastD 0

/-- Byte slicing `&code[..e]` of a UTF-8 string, at the char level: keep
consuming whole chars while their bytes fit below offset `e`. -/
def sliceTo : List Char → Nat → List Char
  | [], _ => []
  | c :: cs, e => if csize c ≤ e then c :: sliceTo cs (e - csize c) else []

/-- The code excerpt placed between the backtick fences: `code` unchanged if
its byte length is at most 2000, else the slice up to `truncEnd` followed by
`...(truncated)`. -/
def truncated_code (code : String) : String :=
  if strByteLen code > 2000 then
    String.mk (sliceTo code.data (truncEnd code.data)) ++ "...(truncated)"
  else code

/-- `format_message` from `src/server/src/main.rs`: the full chat message. -/
def format_message (file : String) (start_line end_line : Option Nat)
    (side : Option String) (code question : String) : String :=
  file ++ locationSuffix start_line end_line ++ sideMarker side ++ "\n" ++
    "```\n" ++ truncated_code code ++ "\n```\n" ++ questionPart question

/-! ### Truncation lemmas -/

/-- Tail-recursive unfolding of `last ∘ take_while (≤ 2000)` over the char
start offsets, carrying the last offset seen that was ≤ 2000. -/
def truncEndAux : List Char → Nat → Nat → Nat
  | [], _, acc => acc
  | c :: cs, off, acc => if off ≤ 2000 then truncEndAux cs (off + csize c) off else acc

theorem getLastD_takeWhile_eq_aux (l : List Char) :
    ∀ off acc, ((charStartsFrom off l).takeWhile (fun i => decide (i ≤ 2000))).getLastD acc =
      truncEndAux l off acc := by
  induction l with
  | nil => intro off acc; rfl
  | cons c cs ih =>
    intro off acc
    rw [charStartsFrom, truncEndAux, List.takeWhile_cons]
    by_cases h : off ≤ 2000
    · rw [if_pos (by simpa using h), if_pos h, List.getLastD_cons, ih]
    · rw [if_neg (by simpa using h), if_neg h]
      rfl

theorem truncEndAux_spec (l : List Char) :
    ∀ off acc, acc ≤ 2000 →
      truncEndAux l off acc ≤ 2000 ∧
        (truncEndAux l off acc = acc ∨
          ∃ j, truncEndAux l off acc = off + byteLenL (l.take j)) := by
  induction l with
  | nil => intro off acc hacc; exact ⟨hacc, Or.inl rfl⟩
  | cons c cs ih =>
    intro off acc hacc
    rw [truncEndAux]
    by_cases h : off ≤ 2000
    · rw [if_pos h]
      obtain ⟨h1, h2⟩ := ih (off + csize c) off h
      refine ⟨h1, Or.inr ?_⟩
      rcases h2 with h2 | ⟨j, hj⟩
      · exact ⟨0, by simpa using h2⟩
      · exact ⟨j + 1, by
          rw [hj, List.take_succ_cons]
          simp [byteLenL, List.map_cons, List.sum_cons]
          omega⟩
    · rw [if_neg h]
      exact ⟨hacc, Or.inl rfl⟩

theorem truncEnd_spec (code : List Char) :
    ∃ j, truncEnd code = byteLenL (code.take j) ∧ truncEnd code ≤ 2000 := by
  have hb := getLastD_takeWhile_eq_aux code 0 0
  have hs := truncEndAux_spec code 0 0 (by omega)
  rw [truncEnd, hb]
  rcases hs.2 with h | ⟨j, hj⟩
  · exact ⟨0, by simpa [byteLenL] using h, hs.1⟩
  · exact ⟨j, by simpa using hj, hs.1⟩

theorem sliceTo_take (code : List Char) :
    ∀ j, sliceTo code (byteLenL (code.take j)) = code.take j := by
  induction code with
  | nil => intro j; simp [sliceTo]
  | cons c cs ih =>
    intro j
    cases j with
    | zero =>
      simp only [List.take_zero, byteLenL, List.map_nil, List.sum_nil, sliceTo]
      rw [if_neg (by have := csize_pos c; omega)]
    | succ j' =>
      rw [List.take_succ_cons, sliceTo]
      have hbl : byteLenL (c :: cs.take j') = csize c + byteLenL (cs.take j') := by
        simp [byteLenL, List.map_cons, List.sum_cons]
      rw [hbl, if_pos (by omega)]
      have : csize c + byteLenL (cs.take j') - csize c = byteLenL (cs.take j') := by omega
      rw [this, ih j']

/-- On long inputs the excerpt is a whole-char prefix of the code whose byte
length is at most 2000, followed by the truncation marker. -/
theorem truncated_code_spec (code : String) :
    ∃ j, byteLenL (code.data.take j) ≤ 2000 ∧
      truncated_code code =
        if strByteLen code > 2000 then
          String.mk (code.data.take j) ++ "...(truncated)"
        else code := by
  by_cases h : strByteLen code > 2000
  · obtain ⟨j, hj, hle⟩ := truncEnd_spec code.data
    refine ⟨j, by omega, ?_⟩
    rw [truncated_code, if_pos h, if_pos h, hj, sliceTo_take]
  · refine ⟨code.data.length, ?_, ?_⟩
    · rw [List.take_length]
      simp only [strByteLen] at h
      omega
    · rw [truncated_code, if_neg h, if_neg h]

/-! ## Request decoding (serde model)

`serde_json::from_str::<Request>` is modelled in two stages: the textual
parse yields a JSON value (or a parse error), and the derived `Deserialize`
for the internally-tagged `Request` enum maps that value to a request.
JSON numbers are modelled as integers (no claim exercises floats). -/

inductive Json where
  | null
  | bool (b : Bool)
  | num (n : Int)
  | str (s : String)
  | arr (xs : List Json)
  | obj (fields : List (String × Json))

/-- Payload of the `send` variant of `Request`. -/
structure SendReq where
  file : String
  start_line : Option Nat
  end_line : Option Nat
  side : Option String
  code : String
  question : String
  tmux_target : String
  debug_html : Option String
deriving DecidableEq

/-- The `Request` enum, tagged by the JSON `action` field. -/
inductive Request where
  | Send (r : SendReq)
  | ListSessions
deriving DecidableEq

/-- First value bound to a key in a JSON object. -/
def lookupField (fields : List (String × Json)) (key : String) : Option Json :=
  (fields.find? (fun p => p.1 == key)).map (fun p => p.2)

/-- Deserialize a required `String` field. -/
def getStr (name : String) : Option Json → Except String String
  | some (.str s) => .ok s
  | some _ => .error ("invalid type for field " ++ name)
  | none => .error ("missing field " ++ name)

/-- Deserialize an `Option<String>` field (absent or `null` means `None`). -/
def getOptStr (name : String) : Option Json → Except String (Option String)
  | none => .ok none
  | some .null => .ok none
  | some (.str s) => .ok (some s)
  | some _ => .error ("invalid type for field " ++ name)

/-- Deserialize an `Option<u64>` field (absent or `null` means `None`). -/
def getOptU64 (name : String) : Option Json → Except String (Option Nat)
  | none => .ok none
  | some .null => .ok none
  | some (.num n) =>
    if 0 ≤ n ∧ n < 18446744073709551616 then .ok (some n.toNat)
    else .error ("invalid value for field " ++ name)
  | some _ => .error ("invalid type for field " ++ name)

/-- Field decoding for the `send` variant. -/
def decodeSend (fields : List (String × Json)) : Except String Request := do
  let file ← getStr "file" (lookupField fields "file")
  let start_line ← getOptU64 "start_line" (lookupField fields "start_line")
  let end_line ← getOptU64 "end_line" (lookupField fields "end_line")
  let side ← getOptStr "side" (lookupField fields "side")
  let code ← getStr "code" (lookupField fields "code")
  let question ← getStr "question" (lookupField fields "question")
  let tmux_target ← getStr "tmux_target" (lookupField fields "tmux_target")
  let debug_html ← getOptStr "debug_html" (lookupField fields "debug_html")
  return .Send ⟨file, start_line, end_line, side, code, question, tmux_target, debug_html⟩

/-- The derived `Deserialize` for the internally-tagged `Request` enum:
strict on the `action` discriminator, permissive on optional fields. -/
def deserializeRequest (j : Json) : Except String Request :=
  match j with
  | .obj fields =>
    match lookupField fields "action" with
    | some (.str a) =>
      if a = "send" then decodeSend fields
      else if a = "list-sessions" then .ok .ListSessions
      else .error ("unknown variant " ++ a)
    | some _ => .error "invalid type for tag action"
    | none => .error "missing field action"
  | _ => .error "invalid type: expected an object"

/-- Whether the value carries a recognized `action` tag. -/
def recognizedAction (j : Json) : Bool :=
  match j with
  | .obj fields =>
    match lookupField fields "action" with
    | some (.str a) => a == "send" || a == "list-sessions"
    | _ => false
  | _ => false

theorem deserializeRequest_unrecognized (j : Json) (h : recognizedAction j = false) :
    ∃ e, deserializeRequest j = .error e := by
  rcases j with _ | b | n | s | xs | fields
  · exact ⟨_, rfl⟩
  · exact ⟨_, rfl⟩
  · exact ⟨_, rfl⟩
  · exact ⟨_, rfl⟩
  · exact ⟨_, rfl⟩
  · rw [recognizedAction] at h
    rw [deserializeRequest]
    rcases hl : lookupField fields "action" with _ | j'
    · exact ⟨_, rfl⟩
    · rcases j' with _ | b | n | s | xs | fs
      · exact ⟨_, rfl⟩
      · exact ⟨_, rfl⟩
      · exact ⟨_, rfl⟩
      · rw [hl] at h
        simp only [Bool.or_eq_false_iff, beq_eq_false_iff_ne, ne_eq] at h
        refine ⟨"unknown variant " ++ s, ?_⟩
        simp only [if_neg h.1, if_neg h.2]
      · exact ⟨_, rfl⟩
      · exact ⟨_, rfl⟩

/-! ## Responses and their JSON encoding -/

/-- Response to a `send` request. -/
structure SendResponse where
  ok : Bool
  error : Option String
deriving DecidableEq

/-- Response to a `list-sessions` request. -/
structure ListSessionsResponse where
  ok : Bool
  sessions : Option (List String)
  error : Option String
deriving DecidableEq

/-- Lowercase hex digit, as used by `serde_json`'s `\u00XX` escapes. -/
def hexDigit (n : Nat) : String :=
  if n < 10 then String.singleton (Char.ofNat (48 + n))
  else String.singleton (Char.ofNat (87 + n))

/-- `serde_json`'s escaping of a single char inside a JSON string. -/
def escapeJsonChar (c : Char) : String :=
  if c = '"' then "\\\""
  else if c = '\\' then "\\\\"
  else if c = '\x08' then "\\b"
  else if c = '\x09' then "\\t"
  else if c = '\x0a' then "\\n"
  else if c = '\x0c' then "\\f"
  else if c = '\x0d' then "\\r"
  else if c.toNat < 32 then "\\u00" ++ hexDigit (c.toNat / 16) ++ hexDigit (c.toNat % 16)
  else String.singleton c

/-- Concatenation of per-char fragments. -/
def concatMapStr (f : Char → String) : List Char → String
  | [] => ""
  | c :: cs => f c ++ concatMapStr f cs

/-- JSON encoding of a string value. -/
def encodeJsonString (s : String) : String :=
  "\"" ++ concatMapStr escapeJsonChar s.data ++ "\""

/-- `serde_json::to_string` for `SendResponse`: fields in declaration order,
`error` omitted when `None` (`skip_serializing_if`). -/
def encodeSendResponse (r : SendResponse) : String :=
  "\x7b\"ok\":" ++ (if r.ok then "true" else "false") ++
    (match r.error with
      | none => ""
      | some e => ",\"error\":" ++ encodeJsonString e) ++ "\x7d"

/-- A char that `serde_json` emits unescaped. -/
def plainJsonChar (c : Char) : Bool :=
  decide (c ≠ '"') && decide (c ≠ '\\') && decide (32 ≤ c.toNat)

theorem escapeJsonChar_plain (c : Char) (h : plainJsonChar c = true) :
    escapeJsonChar c = String.singleton c := by
  simp only [plainJsonChar, Bool.and_eq_true, decide_eq_true_eq] at h
  obtain ⟨⟨h1, h2⟩, h3⟩ := h
  have hlow : ∀ d : Char, d.toNat < 32 → c ≠ d := by
    intro d hd he
    rw [he] at h3
    omega
  rw [escapeJsonChar, if_neg h1, if_neg h2,
    if_neg (hlow _ (by decide)), if_neg (hlow _ (by decide)),
    if_neg (hlow _ (by decide)), if_neg (hlow _ (by decide)),
    if_neg (hlow _ (by decide)), if_neg (by omega)]

theorem concatMapStr_singleton (l : List Char)
    (h : ∀ c ∈ l, escapeJsonChar c = String.singleton c) :
    concatMapStr escapeJsonChar l = String.mk l := by
  induction l with
  | nil => rfl
  | cons c cs ih =>
    rw [concatMapStr, h c (by simp), ih (fun d hd => h d (by simp [hd]))]
    rfl

theorem encodeJsonString_plain (s : String) (h : s.data.all plainJsonChar = true) :
    encodeJsonString s = "\"" ++ s ++ "\"" := by
  rw [encodeJsonString, concatMapStr_singleton]
  intro c hc
  exact escapeJsonChar_plain c (by
    rw [List.all_eq_true] at h
    exact h c hc)

/-! ## Environment, session dispatcher and request handling

External effects are made explicit: the environment fixes the outcome of
each subprocess launch, the `HOME` variable, whether the best-effort debug
write would succeed, which filesystem paths exist, and (for comparison with
the spec's Target Resolver) the contents the per-user configuration file
would have — the Rust code itself never reads that file. -/

/-- One request's view of the outside world. -/
structure Env where
  /-- Contents of the per-user configuration file (`none` = unreadable).
  Carried for comparison against the spec; the code never consults it. -/
  configFile : Option String
  /-- The `HOME` environment variable. -/
  home : Option String
  /-- Whether the best-effort `fs::write` of the debug artifact would succeed. -/
  debugWriteOk : Bool
  /-- Which filesystem paths exist (for `find_tmux` probing). -/
  pathExists : String → Bool
  /-- Outcome of launching the first `send-keys` invocation:
  launch failure cause, or exit status. -/
  tmux1 : Except String Int
  /-- Outcome of launching the second (`Enter`) invocation. -/
  tmux2 : Except String Int
  /-- Outcome of the `list-sessions` invocation: launch failure cause, or
  (status success, stdout text, stderr text). -/
  tmuxLs : Except String (Bool × String × String)

/-- The fixed candidate installation paths probed by `find_tmux`. -/
def tmuxCandidates : List String :=
  ["/opt/homebrew/bin/tmux", "/usr/local/bin/tmux", "/usr/bin/tmux"]

/-- `find_tmux`: first candidate path that exists, else the bare name. -/
def find_tmux (pathExists : String → Bool) : String :=
  match tmuxCandidates.find? pathExists with
  | some p => p
  | none => "tmux"

/-- `send_to_tmux`: two `send-keys` invocations (message as one literal
argument, then `Enter`), to the same target.  Returns the result and the
list of attempted invocations (program, argument vector).  A launch failure
on the first invocation short-circuits (`?`); exit statuses are ignored. -/
def send_to_tmux (message target : String) (env : Env) :
    Except String Unit × List (String × List String) :=
  match env.tmux1 with
  | .error e =>
    (.error ("Failed to run tmux: " ++ e),
      [(find_tmux env.pathExists, ["send-keys", "-t", target, message])])
  | .ok _ =>
    match env.tmux2 with
    | .error e =>
      (.error ("Failed to run tmux: " ++ e),
        [(find_tmux env.pathExists, ["send-keys", "-t", target, message]),
          (find_tmux env.pathExists, ["send-keys", "-t", target, "Enter"])])
    | .ok _ =>
      (.ok (),
        [(find_tmux env.pathExists, ["send-keys", "-t", target, message]),
          (find_tmux env.pathExists, ["send-keys", "-t", target, "Enter"])])

/-- Strip one trailing carriage return. -/
def dropTrailingCR (l : List Char) : List Char :=
  match l.getLast? with
  | some c => if c = '\r' then l.dropLast else l
  | none => l

/-- Accumulator pass for `rustLines`: split at `\n` terminators, strip a
`\r` before each terminator, keep a final unterminated line as is. -/
def rustLinesChars : List Char → List Char → List (List Char)
  | [], acc => if acc.isEmpty then [] else [acc.reverse]
  | c :: cs, acc =>
    if c = '\n' then dropTrailingCR acc.reverse :: rustLinesChars cs []
    else rustLinesChars cs (c :: acc)

/-- Rust `str::lines`: lines split at `\n` or `\r\n`, final terminator
optional. -/
def rustLines (s : String) : List String :=
  (rustLinesChars s.data []).map String.mk

/-- `list_sessions`: one `list-sessions` invocation; launch failure or a
non-success exit status are errors, otherwise stdout is split into lines. -/
def list_sessions (env : Env) : Except String (List String) :=
  match env.tmuxLs with
  | .error e => .error ("Failed to run tmux: " ++ e)
  | .ok (success, out, err) =>
    if success then .ok (rustLines out)
    else .error ("tmux list-sessions failed: " ++ err)

/-- A response value written back to the framed channel. -/
inductive Out where
  | send (r : SendResponse)
  | list (r : ListSessionsResponse)
deriving DecidableEq

/-- Side effects performed while handling one request. -/
structure Effects where
  tmuxAttempts : List (String × List String)
  debugWrites : List (String × String)
deriving DecidableEq

/-- `handle_request`: debug-artifact write (best effort, outcome ignored),
message formatting, dispatch, response selection. -/
def handle_request (req : Request) (env : Env) : Out × Effects :=
  match req with
  | .Send r =>
    let debugWrites :=
      match r.debug_html, env.home with
      | some html, some home => [(home ++ "/.config/pigeon/debug.json", html)]
      | _, _ => []
    let message :=
      format_message r.file r.start_line r.end_line r.side r.code r.question
    match send_to_tmux message r.tmux_target env with
    | (.ok _, attempts) => (.send ⟨true, none⟩, ⟨attempts, debugWrites⟩)
    | (.error e, attempts) => (.send ⟨false, some e⟩, ⟨attempts, debugWrites⟩)
  | .ListSessions =>
    match list_sessions env with
    | .ok sessions => (.list ⟨true, some sessions, none⟩, ⟨[], []⟩)
    | .error e => (.list ⟨false, none, some e⟩, ⟨[], []⟩)

/-- One iteration's input to the read loop: a message (with the parse stage's
result and that iteration's environment), or a `read_message` failure. -/
inductive LoopIn where
  | msg (raw : Except String Json) (env : Env)
  | ioError

/-- The `main` read loop: decode each message, handle it or report the decode
failure, and stop only when `read_message` fails. Produces the responses
written back, in order. -/
def mainLoop : List LoopIn → List Out
  | [] => []
  | .ioError :: _ => []
  | .msg raw env :: rest =>
    match raw.bind deserializeRequest with
    | .error e => .send ⟨false, some ("Invalid JSON: " ++ e)⟩ :: mainLoop rest
    | .ok req => (handle_request req env).1 :: mainLoop rest

/-! ## Spec-side Target Resolver

The spec's §4.4 describes a config-file override and a hardcoded fallback.
No such code exists under `src/`; these definitions follow the spec's words
so the claimed precedence can be compared with what the code does. -/

def isPrefixChars : List Char → List Char → Bool
  | [], _ => true
  | _ :: _, [] => false
  | p :: ps, c :: cs => p == c && isPrefixChars ps cs

/-- Trim surrounding whitespace. -/
def trimChars (l : List Char) : List Char :=
  ((l.dropWhile (fun c => c.isWhitespace)).reverse.dropWhile
    (fun c => c.isWhitespace)).reverse

/-- Modelled from the spec: the `tmux_target=` override read from the
per-user configuration file — "first non-empty value on any line, trimmed of
surrounding whitespace, first match wins, file read failure is silently
treated as no override" (§4.4).  This config-reading code is absent from
`src/`. -/
def spec_config_override (contents : Option String) : Option String :=
  match contents with
  | none => none
  | some text =>
    ((rustLines text).filterMap (fun line =>
      if isPrefixChars "tmux_target=".data line.data then
        let v := String.mk (trimChars (line.data.drop 12))
        if v = "" then none else some v
      else none)).head?

/-- Modelled from the spec: target resolution precedence — config-file value,
then the request's `tmux_target` if non-empty, then a hardcoded fallback
(§4.4).  This resolution code is absent from `src/`. -/
def spec_resolve_target (contents : Option String) (req_target fallback : String) :
    String :=
  match spec_config_override contents with
  | some v => v
  | none => if req_target ≠ "" then req_target else fallback

/-! ## Claims -/

theorem send_to_tmux_attempts (message target : String) (env : Env) :
    ((send_to_tmux message target env).2).all
      (fun a => a.2[2]? == some target) = true := by
  rw [send_to_tmux]
  rcases env.tmux1 with e | s1
  · simp
  · rcases env.tmux2 with e | s2 <;> simp

theorem handle_send_attempts (r : SendReq) (env : Env) :
    (handle_request (.Send r) env).2.tmuxAttempts =
      (send_to_tmux
        (format_message r.file r.start_line r.end_line r.side r.code r.question)
        r.tmux_target env).2 := by
  rw [handle_request]
  rcases h : send_to_tmux
      (format_message r.file r.start_line r.end_line r.side r.code r.question)
      r.tmux_target env with ⟨res, att⟩
  rcases res with e | u <;> simp [h]

/-- C1 (amended): the destination session identifier passed to the
dispatcher is always exactly the request's `tmux_target`; the configuration
file is never consulted (its contents have no effect on the handling of the
request) and no hardcoded fallback is applied. -/
theorem C1_target_amended (r : SendReq) (env : Env) (cfg : Option String) :
    handle_request (.Send r) { env with configFile := cfg } =
      handle_request (.Send r) env ∧
    ((handle_request (.Send r) env).2.tmuxAttempts).all
      (fun a => a.2[2]? == some r.tmux_target) = true := by
  constructor
  · cases env; rfl
  · rw [handle_send_attempts]
    exact send_to_tmux_attempts _ _ _

/-- C1 counterexample: the per-user configuration file supplies the value
`cfg` (so the spec's Target Resolver would choose `cfg`), the request
carries the non-empty `tmux_target` value `req`, and yet the target passed
to the dispatcher in both invocations is `req` — the request's own
`tmux_target`, contradicting the claimed precedence. -/
theorem C1_target_counterexample :
    spec_config_override (some "tmux_target=cfg") = some "cfg" ∧
    spec_resolve_target (some "tmux_target=cfg") "req" "fallback" = "cfg" ∧
    ("req" : String) ≠ "cfg" ∧
    (handle_request (.Send ⟨"a.rs", none, none, none, "x", "q", "req", none⟩)
        ⟨some "tmux_target=cfg", none, true, fun _ => false, .ok 0, .ok 0,
          .ok (true, "", "")⟩).2.tmuxAttempts =
      [("tmux", ["send-keys", "-t", "req", "a.rs\n```\nx\n```\nq"]),
        ("tmux", ["send-keys", "-t", "req", "Enter"])] :=
  ⟨by decide, by decide, by decide, by decide⟩

/-- C2: `format_message` on file `a.rs`, lines 5–9, no side, code
`fn f(){}`, question `why?` yields exactly
`a.rs:5-9\n(fence)\nfn f(){}\n(fence)\nwhy?`. -/
theorem C2_scenario :
    format_message "a.rs" (some 5) (some 9) none "fn f()\x7b\x7d" "why?" =
      "a.rs:5-9\n```\nfn f()\x7b\x7d\n```\nwhy?" := by
  decide

/-- C3: the code excerpt between the backtick fences is `code` unchanged
when its byte length is at most 2000; otherwise it is a whole-char prefix of
`code` of byte length at most 2000 (a cut at a UTF-8 character boundary at
or before byte offset 2000, so no multi-byte character is split) followed by
`...(truncated)`. -/
theorem C3_truncation (code : String) :
    ∃ j, byteLenL (code.data.take j) ≤ 2000 ∧
      truncated_code code =
        (if strByteLen code > 2000 then
          String.mk (code.data.take j) ++ "...(truncated)"
        else code) ∧
      (∀ (file : String) (sl el : Option Nat) (sd : Option String) (q : String),
        format_message file sl el sd code q =
          file ++ locationSuffix sl el ++ sideMarker sd ++ "\n" ++ "```\n" ++
            truncated_code code ++ "\n```\n" ++ questionPart q) := by
  obtain ⟨j, hj, he⟩ := truncated_code_spec code
  exact ⟨j, hj, he, fun _ _ _ _ _ => rfl⟩

/-- C4: the location suffix appended to `file` is `:{start}-{end}` when both
lines are present and unequal, `:{start}` when `start_line` is present and
`end_line` is absent or equal, and nothing when `start_line` is absent even
if `end_line` is present. -/
theorem C4_location_suffix :
    (∀ (file : String) (sl el : Option Nat) (sd : Option String) (code q : String),
      format_message file sl el sd code q =
        file ++ locationSuffix sl el ++ sideMarker sd ++ "\n" ++ "```\n" ++
          truncated_code code ++ "\n```\n" ++ questionPart q) ∧
    (∀ s e, s ≠ e →
      locationSuffix (some s) (some e) = ":" ++ toString s ++ "-" ++ toString e) ∧
    (∀ s, locationSuffix (some s) (some s) = ":" ++ toString s) ∧
    (∀ s, locationSuffix (some s) none = ":" ++ toString s) ∧
    (∀ e, locationSuffix none e = "") := by
  refine ⟨fun _ _ _ _ _ _ => rfl, fun s e h => ?_, fun s => ?_, fun s => rfl,
    fun e => rfl⟩
  · rw [locationSuffix, if_pos h]
  · rw [locationSuffix, if_neg (by simp)]

theorem C4_location_suffix_witness :
    (1 : Nat) ≠ 2 ∧ locationSuffix (some 1) (some 2) = ":1-2" :=
  ⟨by decide, by rw [C4_location_suffix.2.1 1 2 (by decide)]; decide⟩

/-- C5: a message whose parse fails, or whose `action` tag is absent or
unrecognized, never decodes to a `Send` or `ListSessions` value; the loop
writes back a `SendResponse` with `ok: false` and an error beginning
`Invalid JSON: `, continues with the next message, and ends only when
`read_message` itself fails. -/
theorem C5_decode_errors (rest : List LoopIn) (env : Env) :
    (∀ e, mainLoop (.msg (.error e) env :: rest) =
      .send ⟨false, some ("Invalid JSON: " ++ e)⟩ :: mainLoop rest) ∧
    (∀ j, recognizedAction j = false →
      ∃ e, deserializeRequest j = .error e ∧
        mainLoop (.msg (.ok j) env :: rest) =
          .send ⟨false, some ("Invalid JSON: " ++ e)⟩ :: mainLoop rest) ∧
    mainLoop (.ioError :: rest) = [] := by
  refine ⟨fun e => rfl, fun j hj => ?_, rfl⟩
  obtain ⟨e, he⟩ := deserializeRequest_unrecognized j hj
  refine ⟨e, he, ?_⟩
  have hb : (Except.ok j).bind deserializeRequest = Except.error (α := Request) e := by
    simp [Except.bind, he]
  rw [mainLoop, hb]

theorem C5_decode_errors_witness :
    recognizedAction (.obj [("action", Json.str "unknown")]) = false ∧
    (∃ e, deserializeRequest (.obj [("action", Json.str "unknown")]) = .error e ∧
      mainLoop (.msg (.ok (.obj [("action", Json.str "unknown")]))
          ⟨none, none, true, fun _ => false, .ok 0, .ok 0, .ok (true, "", "")⟩ :: []) =
        .send ⟨false, some ("Invalid JSON: " ++ e)⟩ :: mainLoop []) :=
  ⟨by decide,
    (C5_decode_errors [] ⟨none, none, true, fun _ => false, .ok 0, .ok 0,
      .ok (true, "", "")⟩).2.1 (.obj [("action", Json.str "unknown")]) (by decide)⟩

/-- C6 (amended): for every text of byte length below 2^32, writing it with
`write_message` and reading the stream back with `read_message` returns
exactly the original text (and leaves the rest of the stream); `read_message`
fails if the stream ends before the 4 prefix bytes or before the announced
length is consumed, and fails with a data error when the body bytes are not
valid UTF-8. -/
theorem C6_roundtrip_amended :
    (∀ (msg : String) (tail : List Nat), strByteLen msg < 4294967296 →
      read_message (write_message msg ++ tail) = .ok (msg, tail)) ∧
    (∀ s : List Nat, s.length < 4 → read_message s = .error .eof) ∧
    (∀ b0 b1 b2 b3 rest, rest.length < fromLe4 b0 b1 b2 b3 →
      read_message (b0 :: b1 :: b2 :: b3 :: rest) = .error .eof) ∧
    (∀ b0 b1 b2 b3 rest, ¬ rest.length < fromLe4 b0 b1 b2 b3 →
      utf8Decode (rest.take (fromLe4 b0 b1 b2 b3)) = none →
      read_message (b0 :: b1 :: b2 :: b3 :: rest) = .error .invalidData) :=
  ⟨read_write_roundtrip, read_message_short, read_message_truncated,
    read_message_invalid⟩

theorem C6_roundtrip_witness :
    (strByteLen "héllo✓" < 4294967296 ∧
      read_message (write_message "héllo✓" ++ [7]) = .ok ("héllo✓", [7])) ∧
    (([1, 2] : List Nat).length < 4 ∧ read_message [1, 2] = .error .eof) ∧
    (([65] : List Nat).length < fromLe4 5 0 0 0 ∧
      read_message (5 :: 0 :: 0 :: 0 :: [65]) = .error .eof) ∧
    (¬ ([255] : List Nat).length < fromLe4 1 0 0 0 ∧
      utf8Decode (([255] : List Nat).take (fromLe4 1 0 0 0)) = none ∧
      read_message (1 :: 0 :: 0 :: 0 :: [255]) = .error .invalidData) :=
  ⟨⟨by decide, C6_roundtrip_amended.1 "héllo✓" [7] (by decide)⟩,
    ⟨by decide, C6_roundtrip_amended.2.1 [1, 2] (by decide)⟩,
    ⟨by decide, C6_roundtrip_amended.2.2.1 5 0 0 0 [65] (by decide)⟩,
    ⟨by decide, by decide,
      C6_roundtrip_amended.2.2.2 1 0 0 0 [255] (by decide) (by decide)⟩⟩

theorem write_message_mk (l : List Char) :
    write_message (String.mk l) =
      le4 ((utf8Encode l).length % 4294967296) ++ utf8Encode l := rfl

theorem roundtrip_wrap (n : Nat) (h : n % 4294967296 = 0) :
    read_message (write_message (String.mk (List.replicate n 'a'))) =
      .ok ("", List.replicate n 97) := by
  rw [write_message_mk, utf8Encode_replicate_a, List.length_replicate, h]
  have hle : le4 0 = [0, 0, 0, 0] := by decide
  rw [hle]
  have happ : ([0, 0, 0, 0] : List Nat) ++ List.replicate n 97 =
      0 :: 0 :: 0 :: 0 :: List.replicate n 97 := rfl
  rw [happ]
  have hf : fromLe4 0 0 0 0 = 0 := by decide
  rw [read_message, hf, if_neg (Nat.not_lt_zero _), List.take_zero,
    List.drop_zero]
  rfl

theorem mk_ne_empty (l : List Char) (h : l ≠ []) : String.mk l ≠ "" := by
  intro he
  have he2 : String.mk l = String.mk [] := he
  exact h (congrArg String.data he2)

theorem replicate_a_ne_nil (n : Nat) (h : n ≠ 0) :
    List.replicate n 'a' ≠ [] := by
  intro hr
  have h2 := congrArg List.length hr
  rw [List.length_replicate, List.length_nil] at h2
  omega

/-- C6 counterexample: for a text of byte length exactly 2^32 the length
prefix is computed with Rust's `as u32` cast and silently wraps to 0, so
reading the written stream back returns the empty string (with the whole
body left unconsumed), not the original text. -/
theorem C6_roundtrip_counterexample :
    read_message (write_message (String.mk (List.replicate 4294967296 'a'))) =
      .ok ("", List.replicate 4294967296 97) ∧
    String.mk (List.replicate 4294967296 'a') ≠ "" :=
  ⟨roundtrip_wrap 4294967296 (Nat.mod_self _),
    mk_ne_empty _ (replicate_a_ne_nil 4294967296 (by omega))⟩

/-- C7: `send_to_tmux` invokes the multiplexer twice — the message as a
single literal argument, then an `Enter` keystroke, both to the same target —
and returns `Failed to run tmux: <cause>` exactly when launching either
subprocess fails; a first-launch failure skips the second invocation, a
non-zero exit status does not abort anything, and two successful launches
yield success regardless of exit statuses. -/
theorem C7_dispatch (message target : String) (env : Env) :
    (∀ e, env.tmux1 = .error e →
      send_to_tmux message target env =
        (.error ("Failed to run tmux: " ++ e),
          [(find_tmux env.pathExists, ["send-keys", "-t", target, message])])) ∧
    (∀ s1 e, env.tmux1 = .ok s1 → env.tmux2 = .error e →
      send_to_tmux message target env =
        (.error ("Failed to run tmux: " ++ e),
          [(find_tmux env.pathExists, ["send-keys", "-t", target, message]),
            (find_tmux env.pathExists, ["send-keys", "-t", target, "Enter"])])) ∧
    (∀ s1 s2, env.tmux1 = .ok s1 → env.tmux2 = .ok s2 →
      send_to_tmux message target env =
        (.ok (),
          [(find_tmux env.pathExists, ["send-keys", "-t", target, message]),
            (find_tmux env.pathExists, ["send-keys", "-t", target, "Enter"])])) := by
  refine ⟨?_, ?_, ?_⟩
  · intro e h
    rw [send_to_tmux, h]
  · intro s1 e h1 h2
    rw [send_to_tmux, h1, h2]
  · intro s1 s2 h1 h2
    rw [send_to_tmux, h1, h2]

theorem C7_dispatch_witness :
    (Env.tmux1 ⟨none, none, true, fun _ => false, .error "no file", .ok 0,
        .ok (true, "", "")⟩ = .error "no file" ∧
      send_to_tmux "m" "t"
          ⟨none, none, true, fun _ => false, .error "no file", .ok 0,
            .ok (true, "", "")⟩ =
        (.error ("Failed to run tmux: " ++ "no file"),
          [("tmux", ["send-keys", "-t", "t", "m"])])) ∧
    (Env.tmux1 ⟨none, none, true, fun _ => false, .ok 1, .ok 2,
        .ok (true, "", "")⟩ = .ok 1 ∧
      Env.tmux2 ⟨none, none, true, fun _ => false, .ok 1, .ok 2,
        .ok (true, "", "")⟩ = .ok 2 ∧
      send_to_tmux "m" "t"
          ⟨none, none, true, fun _ => false, .ok 1, .ok 2, .ok (true, "", "")⟩ =
        (.ok (),
          [("tmux", ["send-keys", "-t", "t", "m"]),
            ("tmux", ["send-keys", "-t", "t", "Enter"])])) :=
  ⟨⟨rfl, (C7_dispatch "m" "t" _).1 "no file" rfl⟩,
    ⟨rfl, rfl, (C7_dispatch "m" "t" _).2.2 1 2 rfl rfl⟩⟩

theorem sendErrLit (t : String) :
    "\x7b\"ok\":" ++ "false" ++ (",\"error\":" ++ t) ++ "\x7d" =
      "\x7b\"ok\":false,\"error\":" ++ t ++ "\x7d" :=
  String.ext rfl

/-- C8: encoding a success `SendResponse` yields exactly the text
`{"ok":true}` with no `error` key; encoding a failure yields `ok:false` plus
the exact error text (escaped only where JSON requires it) and no other
keys; and every `ListSessionsResponse` the process writes has `sessions`
present iff `ok` is true and `error` present iff `ok` is false. -/
theorem C8_response_encoding :
    encodeSendResponse ⟨true, none⟩ = "\x7b\"ok\":true\x7d" ∧
    (∀ e, encodeSendResponse ⟨false, some e⟩ =
      "\x7b\"ok\":false,\"error\":" ++ encodeJsonString e ++ "\x7d") ∧
    (∀ e : String, e.data.all plainJsonChar = true →
      encodeJsonString e = "\"" ++ e ++ "\"") ∧
    (∀ (req : Request) (env : Env) (r : ListSessionsResponse),
      (handle_request req env).1 = .list r →
        r.sessions.isSome = r.ok ∧ r.error.isSome = !r.ok) := by
  refine ⟨by decide, fun e => sendErrLit (encodeJsonString e),
    encodeJsonString_plain, ?_⟩
  intro req env r h
  cases req with
  | Send r' =>
    rcases hst : send_to_tmux
        (format_message r'.file r'.start_line r'.end_line r'.side r'.code r'.question)
        r'.tmux_target env with ⟨res, att⟩
    rw [handle_request, hst] at h
    rcases res with e | u <;> simp at h
  | ListSessions =>
    rcases hls : list_sessions env with e | ss <;> rw [handle_request, hls] at h <;>
      simp at h <;> rw [← h] <;> simp

theorem C8_response_encoding_witness :
    ("oops".data.all plainJsonChar = true) ∧
    encodeJsonString "oops" = "\"" ++ "oops" ++ "\"" ∧
    ((handle_request .ListSessions
        ⟨none, none, true, fun _ => false, .ok 0, .ok 0,
          .ok (true, "work\ndev\n", "")⟩).1 =
      .list ⟨true, some ["work", "dev"], none⟩) ∧
    ((some ["work", "dev"] : Option (List String)).isSome = true ∧
      (none : Option String).isSome = !true) :=
  ⟨by decide, C8_response_encoding.2.2.1 "oops" (by decide), by decide,
    C8_response_encoding.2.2.2 .ListSessions
      ⟨none, none, true, fun _ => false, .ok 0, .ok 0, .ok (true, "work\ndev\n", "")⟩
      ⟨true, some ["work", "dev"], none⟩ (by decide)⟩

theorem handle_send_response (r : SendReq) (env : Env) :
    (handle_request (.Send r) env).1 =
      match env.tmux1 with
      | .error e => .send ⟨false, some ("Failed to run tmux: " ++ e)⟩
      | .ok _ =>
        match env.tmux2 with
        | .error e => .send ⟨false, some ("Failed to run tmux: " ++ e)⟩
        | .ok _ => .send ⟨true, none⟩ := by
  rw [handle_request, send_to_tmux]
  rcases h1 : env.tmux1 with e | s1
  · rfl
  · rcases h2 : env.tmux2 with e | s2 <;> rfl

/-- C9: the response written back for a `Send` request is independent of the
`debug_html` field and of the debug-artifact write's outcome: two runs
differing only in `debug_html` (and in the home directory / writability that
decide the debug write's fate) produce the identical response, given the
same dispatcher outcome. -/
theorem C9_debug_independence (r1 r2 : SendReq) (env1 env2 : Env)
    (_hf : r1.file = r2.file) (_hsl : r1.start_line = r2.start_line)
    (_hel : r1.end_line = r2.end_line) (_hsd : r1.side = r2.side)
    (_hc : r1.code = r2.code) (_hq : r1.question = r2.question)
    (_ht : r1.tmux_target = r2.tmux_target)
    (h1 : env1.tmux1 = env2.tmux1) (h2 : env1.tmux2 = env2.tmux2) :
    (handle_request (.Send r1) env1).1 = (handle_request (.Send r2) env2).1 := by
  rw [handle_send_response, handle_send_response, h1, h2]

theorem C9_debug_independence_witness :
    (handle_request (.Send ⟨"f", none, none, none, "c", "q", "t", none⟩)
        ⟨none, none, true, fun _ => false, .ok 0, .ok 0, .ok (true, "", "")⟩).1 =
      (handle_request (.Send ⟨"f", none, none, none, "c", "q", "t", some "<html>"⟩)
        ⟨none, some "/home/u", false, fun _ => false, .ok 0, .ok 0,
          .ok (true, "", "")⟩).1 :=
  C9_debug_independence _ _ _ _ rfl rfl rfl rfl rfl rfl rfl rfl rfl

/-- C10: the decoder accepts any string value for the `side` field (decoding
does not fail on an unrecognized side), and for every side value other than
exactly `old` — absent, `new`, or any other string — `format_message`
produces the same output as with side absent, the formatter contributing no
` (deleted lines)` marker. -/
theorem C10_side_permissive :
    (∀ s : String,
      deserializeRequest (.obj [("action", .str "send"), ("file", .str "f"),
        ("side", .str s), ("code", .str "c"), ("question", .str "q"),
        ("tmux_target", .str "t")]) =
        .ok (.Send ⟨"f", none, none, some s, "c", "q", "t", none⟩)) ∧
    (∀ (file : String) (sl el : Option Nat) (sd : Option String) (code q : String),
      sd ≠ some "old" →
        format_message file sl el sd code q = format_message file sl el none code q ∧
        sideMarker sd = "") := by
  constructor
  · intro s
    rfl
  · intro file sl el sd code q h
    have hm : sideMarker sd = "" := by rw [sideMarker, if_neg h]
    refine ⟨?_, hm⟩
    unfold format_message
    rw [hm]
    rfl

theorem C10_side_permissive_witness :
    (some "new" : Option String) ≠ some "old" ∧
    format_message "f" none none (some "new") "c" "q" =
      format_message "f" none none none "c" "q" ∧
    sideMarker (some "new") = "" :=
  ⟨by decide, C10_side_permissive.2 "f" none none (some "new") "c" "q" (by decide)⟩

end Pigeon
